import Mathlib

/-!
# Verification of the Axelar rewards dashboard's participation reconciliation engine

Shallow embedding of `src/api/verifier.ts` and `src/api/voting.ts`.
Remote lookups (the LCD `queryContract` helper, which absorbs transport
failures into `null`) are modelled as explicit oracle functions returning
`Option`-valued responses.  JavaScript numbers are modelled as `Nat`/`Int`
for identifiers and block heights (always integral and small in the source)
and as `ℚ` for reward amounts and participation rates (the source's
fractional arithmetic).
-/

namespace AxelarDashboard

/-- `EPOCH_DURATION = 47250` (blocks), module constant in both
`verifier.ts` and `voting.ts`. -/
def EPOCH_DURATION : Int := 47250

/-- Raw response to a `multisig { session_id }` query, as consumed by
`getSessionDetails` (verifier.ts:100-107): `verifier_set.signers` keys,
`signatures` keys, and the optional `state.completed.completed_at` height.
`none` at the oracle models both "not found" and a transport failure,
exactly as `queryContract` returns `null` for both. -/
structure RawSession where
  signers : List String
  signatures : List String
  completed_at : Option Int
deriving DecidableEq

/-- Result of `getSessionDetails` (verifier.ts:95-108). -/
structure SessionDetails where
  completedAt : Int
  signers : List String
  signatures : List String
deriving DecidableEq

/-- `getSessionDetails` (verifier.ts:100-107): `completedAt` defaults to `0`
via `result.state?.completed?.completed_at || 0`. -/
def getSessionDetails (q : Nat → Option RawSession) (sessionId : Nat) :
    Option SessionDetails :=
  match q sessionId with
  | none => none
  | some r => some ⟨r.completed_at.getD 0, r.signers, r.signatures⟩

/-- The shared shape of the `while (low <= high)` binary-search loop of
`findLatestSessionId` (verifier.ts:80-89) and `findLatestPollId`
(voting.ts:117-126), parameterised by the existence predicate the source
evaluates with a remote lookup.  When `mid = 0` (only reachable from
`low = 0`, never from the source's call sites) the source sets `high` to
`-1` and the loop exits returning `latest`; in `Nat` we return `latest`
directly, which is the same value. -/
def bsearchLoop (e : Nat → Bool) (low high latest : Nat) : Nat :=
  if _h : low ≤ high then
    let mid := (low + high) / 2
    if e mid then bsearchLoop e (mid + 1) high mid
    else if mid = 0 then latest
    else bsearchLoop e low (mid - 1) latest
  else latest
termination_by high + 1 - low
decreasing_by
  · omega
  · omega

/-- `findLatestSessionId` (verifier.ts:75-92): binary search over
`[1, 100000]` with `latestSession` initialised to `1`. -/
def findLatestSessionId (q : Nat → Option RawSession) : Nat :=
  bsearchLoop (fun n => (q n).isSome) 1 100000 1

/-- Raw `poll` object inside a response to a `poll { poll_id }` query, as
consumed by `getPollDetails` (voting.ts:137-147).  The oracle returns `none`
when the response or its `.poll` field is absent/falsy. -/
structure RawPoll where
  expires_at : Option Int
  finished : Option Bool
  participation : Option (List String)
deriving DecidableEq

/-- Result of `getPollDetails` (voting.ts:132-148). -/
structure PollDetails where
  expiresAt : Int
  finished : Bool
  participation : List String
deriving DecidableEq

/-- `getPollDetails` (voting.ts:137-147): `expiresAt` via
`parseInt(poll.expires_at) || 0`, `finished` via `poll.finished || false`,
`participation` via `Object.keys(poll.participation)` defaulting to `[]`. -/
def getPollDetails (p : Nat → Option RawPoll) (pollId : Nat) :
    Option PollDetails :=
  match p pollId with
  | none => none
  | some r => some ⟨r.expires_at.getD 0, r.finished.getD false, r.participation.getD []⟩

/-- The exponential upper-bound probe of `findLatestPollId`
(voting.ts:103-113): `while (high <= 100000)` keep doubling `high` while the
poll at `high` exists, tracking `low` and `latestPoll`.  Returns the final
`(low, high, latestPoll)`.  The `fuel` argument is an embedding artifact
needed for structural recursion; it is unreachable at the call site's fuel
because `high` doubles from `1000` and the loop exits once `high > 100000`
(at most 8 iterations). -/
def expProbeLoop (e : Nat → Bool) : Nat → Nat → Nat → Nat → Nat × Nat × Nat
  | 0, low, high, latest => (low, high, latest)
  | fuel + 1, low, high, latest =>
    if high ≤ 100000 then
      if e high then expProbeLoop e fuel high (2 * high) high
      else (low, high, latest)
    else (low, high, latest)

/-- The slow path of `findLatestPollId` (voting.ts:91-128): the poll-1
emptiness check returning the sentinel `0`, then exponential probing from
`low = 1, high = 1000, latestPoll = 1`, then `high = Math.min(high, 100000)`
and the shared binary search. -/
def findLatestPollIdSlow (p : Nat → Option RawPoll) : Nat :=
  if (p 1).isSome then
    let s := expProbeLoop (fun n => (p n).isSome) 64 1 1000 1
    bsearchLoop (fun n => (p n).isSome) s.1 (min s.2.1 100000) s.2.2
  else 0

/-- `findLatestPollId` (voting.ts:75-129).  `pollIdQ` is the (parsed)
response to the `poll_id {}` query — `none` models a falsy response
(`n ≠ 0` is the truthiness test the source performs on the raw value) —
and `p` is the oracle for `poll { poll_id: n }` lookups (already `none`
when `result.poll` is falsy).  The fast path returns `nextPollId - 1` when
it is at least 1 and the poll there verifiably exists; the source's nested
early-return structure is flattened into one conjunction. -/
def findLatestPollId (pollIdQ : Option Int) (p : Nat → Option RawPoll) : Nat :=
  match pollIdQ with
  | some n =>
    if n ≠ 0 ∧ 1 ≤ n - 1 ∧ (p (n - 1).toNat).isSome then (n - 1).toNat
    else findLatestPollIdSlow p
  | none => findLatestPollIdSlow p

theorem bsearchLoop_stop (e : Nat → Bool) (low high latest : Nat)
    (h : ¬ low ≤ high) : bsearchLoop e low high latest = latest := by
  rw [bsearchLoop]
  simp [h]

theorem bsearchLoop_step_true (e : Nat → Bool) (low high latest : Nat)
    (h : low ≤ high) (he : e ((low + high) / 2) = true) :
    bsearchLoop e low high latest =
      bsearchLoop e ((low + high) / 2 + 1) high ((low + high) / 2) := by
  rw [bsearchLoop]
  simp [h, he]

theorem bsearchLoop_step_false (e : Nat → Bool) (low high latest : Nat)
    (h : low ≤ high) (he : e ((low + high) / 2) = false)
    (h0 : (low + high) / 2 ≠ 0) :
    bsearchLoop e low high latest =
      bsearchLoop e low ((low + high) / 2 - 1) latest := by
  rw [bsearchLoop]
  simp [h, he, h0]

/-- Characterisation of the shared binary-search loop on a predicate that is
true exactly on `1..M`: starting from `1 ≤ low`, the loop returns `latest`
if the interval is empty or wholly above `M`, and `min M high` otherwise. -/
theorem bsearchLoop_prefix_spec (M : Nat) (e : Nat → Bool)
    (he : ∀ n, e n = true ↔ 1 ≤ n ∧ n ≤ M) :
    ∀ low high latest, 1 ≤ low →
      bsearchLoop e low high latest =
        if low ≤ high then (if M < low then latest else min M high) else latest := by
  have main : ∀ n low high latest, high + 1 - low ≤ n → 1 ≤ low →
      bsearchLoop e low high latest =
        if low ≤ high then (if M < low then latest else min M high) else latest := by
    intro n
    induction n with
    | zero =>
      intro low high latest hn hlow
      have hle : ¬ low ≤ high := by omega
      rw [bsearchLoop_stop e low high latest hle, if_neg hle]
    | succ n ih =>
      intro low high latest hn hlow
      by_cases hle : low ≤ high
      · have hmidlo : low ≤ (low + high) / 2 := by omega
        have hmidhi : (low + high) / 2 ≤ high := by omega
        by_cases hemid : e ((low + high) / 2) = true
        · have hm := (he _).mp hemid
          rw [bsearchLoop_step_true e low high latest hle hemid]
          rw [ih ((low + high) / 2 + 1) high ((low + high) / 2) (by omega) (by omega)]
          split_ifs <;> omega
        · have hm : ¬ (1 ≤ (low + high) / 2 ∧ (low + high) / 2 ≤ M) := by
            intro hc
            exact hemid ((he _).mpr hc)
          rw [bsearchLoop_step_false e low high latest hle
            (by simpa using hemid) (by omega)]
          rw [ih low ((low + high) / 2 - 1) latest (by omega) hlow]
          split_ifs <;> omega
      · rw [bsearchLoop_stop e low high latest hle, if_neg hle]
  intro low high latest hlow
  exact main (high + 1 - low) low high latest le_rfl hlow

/-- Post-state of the exponential probe on a predicate true exactly on
`1..M`, entered below `M`: the final `low` stays in `[1, min M 100000]` and
below the final `high`, and the loop only stops once `high` has passed `M`
or the `100000` guard. -/
theorem expProbeLoop_post (M : Nat) (e : Nat → Bool)
    (he : ∀ n, e n = true ↔ 1 ≤ n ∧ n ≤ M) :
    ∀ fuel low high latest, 1 ≤ low → low ≤ M → low ≤ 100000 → low ≤ high →
      100000 < 2 ^ fuel * high →
      1 ≤ (expProbeLoop e fuel low high latest).1 ∧
      (expProbeLoop e fuel low high latest).1 ≤ M ∧
      (expProbeLoop e fuel low high latest).1 ≤ 100000 ∧
      (expProbeLoop e fuel low high latest).1 ≤ (expProbeLoop e fuel low high latest).2.1 ∧
      (M < (expProbeLoop e fuel low high latest).2.1 ∨
        100000 < (expProbeLoop e fuel low high latest).2.1) := by
  intro fuel
  induction fuel with
  | zero =>
    intro low high latest h1 h2 h3 h4 h5
    rw [pow_zero, one_mul] at h5
    exact ⟨h1, h2, h3, h4, Or.inr h5⟩
  | succ n ih =>
    intro low high latest h1 h2 h3 h4 h5
    rw [expProbeLoop]
    by_cases hh : high ≤ 100000
    · rw [if_pos hh]
      by_cases heh : e high = true
      · rw [if_pos heh]
        have hm := (he high).mp heh
        have hpow : 2 ^ (n + 1) * high = 2 ^ n * (2 * high) := by ring
        exact ih high (2 * high) high (by omega) hm.2 hh (by omega) (by omega)
      · rw [if_neg heh]
        have hm : ¬ (1 ≤ high ∧ high ≤ M) := fun hc => heh ((he high).mpr hc)
        dsimp only
        exact ⟨h1, h2, h3, h4, Or.inl (by omega)⟩
    · rw [if_neg hh]
      dsimp only
      exact ⟨h1, h2, h3, h4, Or.inr (by omega)⟩

/-- `findLatestSessionId` on an existence predicate true exactly on `1..M`
(`M ≤ 100000`): returns the initial `latestSession = 1` when the sequence
is empty, and `M` otherwise. -/
theorem findLatestSessionId_prefix_spec (M : Nat) (q : Nat → Option RawSession)
    (hq : ∀ n, (q n).isSome = true ↔ 1 ≤ n ∧ n ≤ M) (hM : M ≤ 100000) :
    findLatestSessionId q = if M = 0 then 1 else M := by
  unfold findLatestSessionId
  rw [bsearchLoop_prefix_spec M _ hq 1 100000 1 le_rfl]
  split_ifs <;> omega

/-- The slow path of `findLatestPollId` on an existence predicate true
exactly on `1..M` (`M ≤ 100000`): sentinel `0` when the sequence is empty,
`M` otherwise. -/
theorem findLatestPollIdSlow_prefix_spec (M : Nat) (p : Nat → Option RawPoll)
    (hp : ∀ n, (p n).isSome = true ↔ 1 ≤ n ∧ n ≤ M) (hM : M ≤ 100000) :
    findLatestPollIdSlow p = if M = 0 then 0 else M := by
  unfold findLatestPollIdSlow
  by_cases hM0 : M = 0
  · subst hM0
    rw [if_neg (by simp [hp 1]), if_pos rfl]
  · rw [if_pos (by simp [hp 1]; omega), if_neg hM0]
    have hpost := expProbeLoop_post M _ hp 64 1 1000 1 le_rfl (by omega) (by omega)
      (by omega) (by norm_num)
    obtain ⟨h1, h2, h3, h4, h5⟩ := hpost
    rw [bsearchLoop_prefix_spec M _ hp _ _ _ h1]
    rw [if_pos (le_min h4 h3), if_neg (by omega)]
    omega

/-- `findLatestPollId` with a consistent `poll_id {}` response (either the
query failed or it reports the next id `M + 1`), on an existence predicate
true exactly on `1..M` (`M ≤ 100000`). -/
theorem findLatestPollId_prefix_spec (M : Nat) (p : Nat → Option RawPoll)
    (pollIdQ : Option Int)
    (hp : ∀ n, (p n).isSome = true ↔ 1 ≤ n ∧ n ≤ M)
    (hpq : pollIdQ = none ∨ pollIdQ = some ((M : Int) + 1)) (hM : M ≤ 100000) :
    findLatestPollId pollIdQ p = if M = 0 then 0 else M := by
  rcases hpq with h | h <;> subst h
  · exact findLatestPollIdSlow_prefix_spec M p hp hM
  · rw [findLatestPollId]
    by_cases hM0 : M = 0
    · subst hM0
      rw [if_neg (by norm_num)]
      exact findLatestPollIdSlow_prefix_spec 0 p hp (by omega)
    · have hsimp : ((M : Int) + 1 - 1).toNat = M := by omega
      rw [if_pos ⟨by omega, by omega, by rw [hsimp]; simp [hp M]; omega⟩, hsimp,
        if_neg hM0]

/-- An entry of the `active_verifiers` response as mapped by
`fetchAllVerifiers` (verifier.ts:40-43). -/
structure Verifier where
  address : String
  bondedAmount : ℚ
deriving DecidableEq

/-- `fetchAllVerifiers` (verifier.ts:28-44): `[]` when the response is
missing or not an array, otherwise the mapped entries. -/
def fetchAllVerifiers (resp : Option (List Verifier)) : List Verifier :=
  match resp with
  | none => []
  | some l => l

/-- Raw `rewards_pool` query response (fields read by
`fetchRewardsPoolInfo` in verifier.ts:67-71 / voting.ts:67-71 and by
`calculatePoolMetrics` in the rewards-table module).  Numeric strings are
modelled post-`parseInt`; `last_distribution_epoch` is optional because the
source tests its truthiness before parsing. -/
structure RewardsPoolResponse where
  balance : Nat
  rewards_per_epoch : Nat
  current_epoch_num : Nat
  last_distribution_epoch : Option Nat
  epoch_duration : Nat
  participation_threshold : Nat × Nat
deriving DecidableEq

/-- Parsed pool info returned by `fetchRewardsPoolInfo` (verifier.ts:47-72)
and `fetchVotingRewardsPoolInfo` (voting.ts:47-72): only these three fields
are extracted; in particular `participation_threshold` is dropped. -/
structure RewardsPoolInfo where
  currentEpoch : Nat
  lastDistributionEpoch : Nat
  rewardsPerEpoch : ℚ
deriving DecidableEq

/-- Field extraction shared by both pool-info fetchers:
`rewardsPerEpoch = parseInt(rewards_per_epoch) / 1e6`,
`lastDistributionEpoch` defaults to 0. -/
def poolInfoOfResponse (r : RewardsPoolResponse) : RewardsPoolInfo :=
  { currentEpoch := r.current_epoch_num
    lastDistributionEpoch := r.last_distribution_epoch.getD 0
    rewardsPerEpoch := (r.rewards_per_epoch : ℚ) / 1000000 }

/-- `fetchRewardsPoolInfo` (verifier.ts:47-72): `null` when the global
multisig address is unavailable or the pool query fails. -/
def fetchRewardsPoolInfo (globalMultisig : Option String)
    (resp : Option RewardsPoolResponse) : Option RewardsPoolInfo :=
  match globalMultisig with
  | none => none
  | some _ => resp.map poolInfoOfResponse

/-- `fetchVotingRewardsPoolInfo` (voting.ts:47-72): `null` when the chain
has no voting-verifier contract or the pool query fails. -/
def fetchVotingRewardsPoolInfo (votingVerifierAddress : Option String)
    (resp : Option RewardsPoolResponse) : Option RewardsPoolInfo :=
  match votingVerifierAddress with
  | none => none
  | some _ => resp.map poolInfoOfResponse

/-- The `participationThreshold` the rewards-table module derives from a
pool response (`calculatePoolMetrics`):
`parseInt(participation_threshold[0]) / parseInt(participation_threshold[1])`. -/
def participationThresholdOf (r : RewardsPoolResponse) : ℚ :=
  (r.participation_threshold.1 : ℚ) / (r.participation_threshold.2 : ℚ)

/-- The epoch block window computed by both scanners
(verifier.ts:162-170, voting.ts:233-241), with the epoch length as a
parameter (the source applies it at the module constant `EPOCH_DURATION`):
`start = (currentBlock - currentBlock % L) - (currentEpoch - e) * L`,
`end = start + L - 1`.  Heights are `Int` as in JS; on the nonnegative
heights the source handles, JS `%` agrees with `Int.emod`. -/
def epochWindow (L currentBlock : Int) (currentEpoch e : Nat) : Int × Int :=
  let currentEpochStartBlock := currentBlock - currentBlock % L
  let epochStart := currentEpochStartBlock - ((currentEpoch : Int) - (e : Int)) * L
  (epochStart, epochStart + L - 1)

/-- `unpaidEpochs` (verifier.ts:138-141, voting.ts:208-211): the epochs
`lastDistributionEpoch + 1 .. currentEpoch`. -/
def unpaidEpochsOf (pi : RewardsPoolInfo) : List Nat :=
  List.range' (pi.lastDistributionEpoch + 1)
    (pi.currentEpoch - pi.lastDistributionEpoch)

/-- JS `Array.prototype.slice(-k)` as used for `epochsToScan`
(verifier.ts:144, voting.ts:214): the last `k` elements — except that
`slice(-0) = slice(0)` returns the whole array. -/
def jsSliceNeg (l : List Nat) (k : Nat) : List Nat :=
  if k = 0 then l else l.drop (l.length - k)

/-- `Math.min(...epochsToScan)` (verifier.ts:184, voting.ts:250), on the
nonempty lists the source applies it to. -/
def listMin : List Nat → Nat
  | [] => 0
  | x :: xs => xs.foldl min x

/-- The descending id range of the backward scan loops
(verifier.ts:193 with `cap = 5000`, voting.ts:266 with `cap = 2000`):
`latest, latest - 1, ..., max(1, latest - cap)`. -/
def scanIds (latest cap : Nat) : List Nat :=
  (List.range' (max 1 (latest - cap)) (latest + 1 - max 1 (latest - cap))).reverse

/-- One record classification step (verifier.ts:205-217,
voting.ts:283-298): find the first epoch range containing the record's
height, increment its `total`, and its participation count when the
scanned participant took part.  Tallies are a total map
`epoch → (total, participated)`. -/
def tallyRecord (ranges : List (Nat × Int × Int)) (h : Int)
    (participated : Bool) (stats : Nat → Nat × Nat) : Nat → Nat × Nat :=
  match ranges.find? (fun r => decide (r.2.1 ≤ h) && decide (h ≤ r.2.2)) with
  | none => stats
  | some r => fun e =>
      if e = r.1 then
        ((stats r.1).1 + 1, (stats r.1).2 + (if participated then 1 else 0))
      else stats e

/-- The backward session scan (verifier.ts:193-223): skip absent records,
break once a record's completion height falls below the oldest epoch's
start, otherwise classify and continue. -/
def scanSessions (q : Nat → Option RawSession) (verifierAddress : String)
    (ranges : List (Nat × Int × Int)) (lowerBound : Int) :
    List Nat → (Nat → Nat × Nat) → Nat → Nat × Nat
  | [], stats => stats
  | id :: rest, stats =>
    match getSessionDetails q id with
    | none => scanSessions q verifierAddress ranges lowerBound rest stats
    | some s =>
      if s.completedAt < lowerBound then stats
      else
        scanSessions q verifierAddress ranges lowerBound rest
          (tallyRecord ranges s.completedAt (s.signatures.contains verifierAddress) stats)

/-- Whether the session scan's early-exit `break` (verifier.ts:200-202)
fires on a given id list: observation function over the same walk as
`scanSessions`, used to state that the result carries no trace of it. -/
def scanSessionsBroke (q : Nat → Option RawSession) (lowerBound : Int) :
    List Nat → Bool
  | [] => false
  | id :: rest =>
    match getSessionDetails q id with
    | none => scanSessionsBroke q lowerBound rest
    | some s => if s.completedAt < lowerBound then true else scanSessionsBroke q lowerBound rest

/-- The backward poll scan (voting.ts:266-308): same walk keyed on
`expiresAt` and the poll's `participation` set. -/
def scanPolls (p : Nat → Option RawPoll) (verifierAddress : String)
    (ranges : List (Nat × Int × Int)) (lowerBound : Int) :
    List Nat → (Nat → Nat × Nat) → Nat → Nat × Nat
  | [], stats => stats
  | id :: rest, stats =>
    match getPollDetails p id with
    | none => scanPolls p verifierAddress ranges lowerBound rest stats
    | some poll =>
      if poll.expiresAt < lowerBound then stats
      else
        scanPolls p verifierAddress ranges lowerBound rest
          (tallyRecord ranges poll.expiresAt (poll.participation.contains verifierAddress) stats)

/-- An `epochPerformance` row for signing (verifier.ts:238-244). -/
structure EpochPerformance where
  epochNum : Nat
  sessionsInEpoch : Nat
  sessionsSigned : Nat
  participationRate : ℚ
  qualified : Bool
deriving DecidableEq

/-- The per-epoch evaluation (verifier.ts:231-245):
`rate = total > 0 ? (signed / total) * 100 : 0` and
`qualified = total > 0 ? rate >= 80 : false`, with the `80` a literal in
the source. -/
def epochPerformanceOf (stats : Nat → Nat × Nat) (e : Nat) : EpochPerformance :=
  let total := (stats e).1
  let signed := (stats e).2
  let rate : ℚ := if 0 < total then ((signed : ℚ) / (total : ℚ)) * 100 else 0
  { epochNum := e
    sessionsInEpoch := total
    sessionsSigned := signed
    participationRate := rate
    qualified := if 0 < total then decide (80 ≤ rate) else false }

/-- The `VerifierChainData` report, with exactly the fields the source's
return statements carry (verifier.ts:147-158 and 251-262). -/
structure VerifierChainData where
  chainName : String
  currentEpoch : Nat
  lastDistributionEpoch : Nat
  unpaidEpochCount : Nat
  activeVerifiers : Nat
  poolRewardsPerEpoch : ℚ
  rewardsPerVerifierPerEpoch : ℚ
  epochPerformance : List EpochPerformance
  qualifiedEpochs : Nat
  estimatedPendingRewards : ℚ
deriving DecidableEq

/-- The final tallies of a session scan run (verifier.ts:172-223): ranges
from the epochs to scan, lower bound from the oldest range, ids from the
located latest session with the hard `5000` look-back cap. -/
def verifierScanStats (verifierAddress : String) (epochsToCheck : Nat)
    (pi : RewardsPoolInfo) (currentBlock : Int) (latestSessionId : Nat)
    (q : Nat → Option RawSession) : Nat → Nat × Nat :=
  let scan := jsSliceNeg (unpaidEpochsOf pi) epochsToCheck
  let ranges := scan.map fun e => (e, epochWindow EPOCH_DURATION currentBlock pi.currentEpoch e)
  let oldestRange := (ranges.lookup (listMin scan)).getD (0, 0)
  scanSessions q verifierAddress ranges oldestRange.1
    (scanIds latestSessionId 5000) (fun _ => (0, 0))

/-- The body of `fetchVerifierPerformance` after its null checks
(verifier.ts:132-262), which always produces a report. -/
def verifierPerformanceCore (verifierAddress chainName : String)
    (epochsToCheck : Nat) (pi : RewardsPoolInfo) (currentBlock : Int)
    (verifiers : List Verifier) (q : Nat → Option RawSession) :
    VerifierChainData :=
  let activeVerifiers : Nat := verifiers.length
  let rpv : ℚ := if 0 < activeVerifiers
    then pi.rewardsPerEpoch / (activeVerifiers : ℚ)
    else pi.rewardsPerEpoch
  let unpaid := unpaidEpochsOf pi
  let scan := jsSliceNeg unpaid epochsToCheck
  if scan.isEmpty then
    { chainName := chainName
      currentEpoch := pi.currentEpoch
      lastDistributionEpoch := pi.lastDistributionEpoch
      unpaidEpochCount := 0
      activeVerifiers := activeVerifiers
      poolRewardsPerEpoch := pi.rewardsPerEpoch
      rewardsPerVerifierPerEpoch := rpv
      epochPerformance := []
      qualifiedEpochs := 0
      estimatedPendingRewards := 0 }
  else
    let stats := verifierScanStats verifierAddress epochsToCheck pi currentBlock
      (findLatestSessionId q) q
    let perf := scan.map (epochPerformanceOf stats)
    let qualified := perf.countP fun p => p.qualified
    { chainName := chainName
      currentEpoch := pi.currentEpoch
      lastDistributionEpoch := pi.lastDistributionEpoch
      unpaidEpochCount := unpaid.length
      activeVerifiers := activeVerifiers
      poolRewardsPerEpoch := pi.rewardsPerEpoch
      rewardsPerVerifierPerEpoch := rpv
      epochPerformance := perf
      qualifiedEpochs := qualified
      estimatedPendingRewards :=
        ((qualified : ℚ) / (scan.length : ℚ)) * (unpaid.length : ℚ) * rpv }

/-- `fetchVerifierPerformance` (verifier.ts:111-267).  The remote
collaborators are explicit inputs: the pool response, the global multisig
address, the current-block-height response, the `active_verifiers`
response and the per-session oracle.  Query failures are absorbed as
`none` by `queryContract`, but `getCurrentBlockHeight`
(verifier.ts:22-25) is a raw `axios.get` inside the `try`: its failure —
modelled as `currentBlockResp = none` — propagates to the outer `catch`
(verifier.ts:263-266) and returns `null`, as do the source's two explicit
null checks. -/
def fetchVerifierPerformance (verifierAddress chainName : String)
    (epochsToCheck : Nat) (poolResp : Option RewardsPoolResponse)
    (globalMultisig : Option String) (currentBlockResp : Option Int)
    (verifiersResp : Option (List Verifier))
    (q : Nat → Option RawSession) : Option VerifierChainData :=
  match currentBlockResp with
  | none => none
  | some currentBlock =>
    match fetchRewardsPoolInfo globalMultisig poolResp, globalMultisig with
    | some pi, some _ =>
      some (verifierPerformanceCore verifierAddress chainName epochsToCheck pi
        currentBlock (fetchAllVerifiers verifiersResp) q)
    | _, _ => none

/-- An `epochPerformance` row for voting (voting.ts:323-329). -/
structure VotingEpochPerformance where
  epochNum : Nat
  pollsInEpoch : Nat
  pollsVoted : Nat
  participationRate : ℚ
  qualified : Bool
deriving DecidableEq

/-- The per-epoch evaluation for voting (voting.ts:316-330), identical to
the signing one including the literal `80`. -/
def votingEpochPerformanceOf (stats : Nat → Nat × Nat) (e : Nat) :
    VotingEpochPerformance :=
  let total := (stats e).1
  let voted := (stats e).2
  let rate : ℚ := if 0 < total then ((voted : ℚ) / (total : ℚ)) * 100 else 0
  { epochNum := e
    pollsInEpoch := total
    pollsVoted := voted
    participationRate := rate
    qualified := if 0 < total then decide (80 ≤ rate) else false }

/-- The `VotingChainData` report, with exactly the fields of the source's
return statements (voting.ts:183-196, 216-229 and 335-347). -/
structure VotingChainData where
  chainName : String
  votingVerifierAddress : String
  currentEpoch : Nat
  lastDistributionEpoch : Nat
  unpaidEpochCount : Nat
  activeVerifiers : Nat
  poolRewardsPerEpoch : ℚ
  rewardsPerVerifierPerEpoch : ℚ
  epochPerformance : List VotingEpochPerformance
  qualifiedEpochs : Nat
  estimatedPendingRewards : ℚ
deriving DecidableEq

/-- The final tallies of a poll scan run (voting.ts:232-308), given the
already-located latest poll id; the look-back cap is `2000`. -/
def votingScanStats (verifierAddress : String) (epochsToCheck : Nat)
    (pi : RewardsPoolInfo) (currentBlock : Int) (latestPollId : Nat)
    (p : Nat → Option RawPoll) : Nat → Nat × Nat :=
  let scan := jsSliceNeg (unpaidEpochsOf pi) epochsToCheck
  let ranges := scan.map fun e => (e, epochWindow EPOCH_DURATION currentBlock pi.currentEpoch e)
  let oldestRange := (ranges.lookup (listMin scan)).getD (0, 0)
  scanPolls p verifierAddress ranges oldestRange.1
    (scanIds latestPollId 2000) (fun _ => (0, 0))

/-- The body of `fetchVotingPerformance` after its null checks
(voting.ts:176-347), which always produces a report: the no-polls early
return (latest poll id 0), the no-unpaid-epochs early return, or the full
scan. -/
def votingPerformanceCore (verifierAddress chainName : String)
    (epochsToCheck : Nat) (votingVerifierAddress : String)
    (pi : RewardsPoolInfo) (currentBlock : Int) (pollIdQ : Option Int)
    (p : Nat → Option RawPoll) : VotingChainData :=
  let latestPollId := findLatestPollId pollIdQ p
  if latestPollId = 0 then
    { chainName := chainName
      votingVerifierAddress := votingVerifierAddress
      currentEpoch := pi.currentEpoch
      lastDistributionEpoch := pi.lastDistributionEpoch
      unpaidEpochCount := pi.currentEpoch - pi.lastDistributionEpoch
      activeVerifiers := 0
      poolRewardsPerEpoch := pi.rewardsPerEpoch
      rewardsPerVerifierPerEpoch := 0
      epochPerformance := []
      qualifiedEpochs := 0
      estimatedPendingRewards := 0 }
  else
    let activeVerifiers : Nat := match getPollDetails p latestPollId with
      | some poll => poll.participation.length
      | none => 30
    let rpv : ℚ := if 0 < activeVerifiers
      then pi.rewardsPerEpoch / (activeVerifiers : ℚ)
      else pi.rewardsPerEpoch
    let unpaid := unpaidEpochsOf pi
    let scan := jsSliceNeg unpaid epochsToCheck
    if scan.isEmpty then
      { chainName := chainName
        votingVerifierAddress := votingVerifierAddress
        currentEpoch := pi.currentEpoch
        lastDistributionEpoch := pi.lastDistributionEpoch
        unpaidEpochCount := 0
        activeVerifiers := activeVerifiers
        poolRewardsPerEpoch := pi.rewardsPerEpoch
        rewardsPerVerifierPerEpoch := rpv
        epochPerformance := []
        qualifiedEpochs := 0
        estimatedPendingRewards := 0 }
    else
      let stats := votingScanStats verifierAddress epochsToCheck pi currentBlock latestPollId p
      let perf := scan.map (votingEpochPerformanceOf stats)
      let qualified := perf.countP fun p => p.qualified
      { chainName := chainName
        votingVerifierAddress := votingVerifierAddress
        currentEpoch := pi.currentEpoch
        lastDistributionEpoch := pi.lastDistributionEpoch
        unpaidEpochCount := unpaid.length
        activeVerifiers := activeVerifiers
        poolRewardsPerEpoch := pi.rewardsPerEpoch
        rewardsPerVerifierPerEpoch := rpv
        epochPerformance := perf
        qualifiedEpochs := qualified
        estimatedPendingRewards :=
          ((qualified : ℚ) / (scan.length : ℚ)) * (unpaid.length : ℚ) * rpv }

/-- `fetchVotingPerformance` (voting.ts:151-352): `null` when the chain
has no voting-verifier contract, when the pool info is unavailable, or —
via the outer `catch` (voting.ts:348-351) — when the raw
`getCurrentBlockHeight` lookup (voting.ts:22-25, awaited at
voting.ts:166-169 with no local absorption) fails, modelled as
`currentBlockResp = none`. -/
def fetchVotingPerformance (verifierAddress chainName : String)
    (epochsToCheck : Nat) (votingVerifierAddress : Option String)
    (poolResp : Option RewardsPoolResponse) (currentBlockResp : Option Int)
    (pollIdQ : Option Int) (p : Nat → Option RawPoll) :
    Option VotingChainData :=
  match votingVerifierAddress with
  | none => none
  | some addr =>
    match currentBlockResp with
    | none => none
    | some currentBlock =>
      match fetchVotingRewardsPoolInfo (some addr) poolResp with
      | none => none
      | some pi =>
        some (votingPerformanceCore verifierAddress chainName epochsToCheck addr
          pi currentBlock pollIdQ p)

theorem epochPerformanceOf_congr (s s' : Nat → Nat × Nat) (e : Nat)
    (h : s e = s' e) : epochPerformanceOf s e = epochPerformanceOf s' e := by
  unfold epochPerformanceOf
  rw [h]

theorem votingEpochPerformanceOf_congr (s s' : Nat → Nat × Nat) (e : Nat)
    (h : s e = s' e) :
    votingEpochPerformanceOf s e = votingEpochPerformanceOf s' e := by
  unfold votingEpochPerformanceOf
  rw [h]

/-- The verdict of the per-epoch evaluation, expressed through the row's
own fields: qualified iff the tally is nonempty and the (percentage) rate
is at least the literal `80`. -/
theorem epochPerformanceOf_qualified (s : Nat → Nat × Nat) (e : Nat) :
    (epochPerformanceOf s e).qualified =
      decide (0 < (epochPerformanceOf s e).sessionsInEpoch ∧
        80 ≤ (epochPerformanceOf s e).participationRate) := by
  unfold epochPerformanceOf
  dsimp only
  by_cases h : 0 < (s e).1
  · simp [h]
  · simp [h]

theorem votingEpochPerformanceOf_qualified (s : Nat → Nat × Nat) (e : Nat) :
    (votingEpochPerformanceOf s e).qualified =
      decide (0 < (votingEpochPerformanceOf s e).pollsInEpoch ∧
        80 ≤ (votingEpochPerformanceOf s e).participationRate) := by
  unfold votingEpochPerformanceOf
  dsimp only
  by_cases h : 0 < (s e).1
  · simp [h]
  · simp [h]

theorem jsSliceNeg_eq_nil (l : List Nat) (k : Nat)
    (h : (jsSliceNeg l k).isEmpty = true) : l = [] := by
  unfold jsSliceNeg at h
  split at h
  · simpa using h
  · rw [List.isEmpty_iff] at h
    rw [List.drop_eq_nil_iff] at h
    rename_i hk
    have : l.length = 0 := by omega
    exact List.length_eq_zero.mp this

theorem unpaidEpochsOf_length (pi : RewardsPoolInfo) :
    (unpaidEpochsOf pi).length = pi.currentEpoch - pi.lastDistributionEpoch := by
  unfold unpaidEpochsOf
  rw [List.length_range']

/-- Inversion for `fetchVerifierPerformance = some d`: the block-height
lookup succeeded, both null checks passed, and `d` is the core's report. -/
theorem verifier_report_of_some (va cn : String) (etc : Nat)
    (poolResp : Option RewardsPoolResponse) (gm : Option String)
    (cbResp : Option Int) (vr : Option (List Verifier))
    (q : Nat → Option RawSession) (d : VerifierChainData)
    (hd : fetchVerifierPerformance va cn etc poolResp gm cbResp vr q = some d) :
    ∃ r g cb, poolResp = some r ∧ gm = some g ∧ cbResp = some cb ∧
      d = verifierPerformanceCore va cn etc (poolInfoOfResponse r) cb
        (fetchAllVerifiers vr) q := by
  cases cbResp with
  | none => simp [fetchVerifierPerformance] at hd
  | some cb =>
    cases gm with
    | none => simp [fetchVerifierPerformance, fetchRewardsPoolInfo] at hd
    | some g =>
      cases poolResp with
      | none => simp [fetchVerifierPerformance, fetchRewardsPoolInfo] at hd
      | some r =>
        refine ⟨r, g, cb, rfl, rfl, rfl, ?_⟩
        simp only [fetchVerifierPerformance, fetchRewardsPoolInfo, Option.map,
          Option.some.injEq] at hd
        exact hd.symm

/-- Inversion for `fetchVotingPerformance = some d`. -/
theorem voting_report_of_some (va cn : String) (etc : Nat)
    (addr : Option String) (poolResp : Option RewardsPoolResponse)
    (cbResp : Option Int) (pollIdQ : Option Int) (p : Nat → Option RawPoll)
    (d : VotingChainData)
    (hd : fetchVotingPerformance va cn etc addr poolResp cbResp pollIdQ p = some d) :
    ∃ a r cb, addr = some a ∧ poolResp = some r ∧ cbResp = some cb ∧
      d = votingPerformanceCore va cn etc a (poolInfoOfResponse r) cb pollIdQ p := by
  cases addr with
  | none => simp [fetchVotingPerformance] at hd
  | some a =>
    cases cbResp with
    | none => simp [fetchVotingPerformance] at hd
    | some cb =>
      cases poolResp with
      | none => simp [fetchVotingPerformance, fetchVotingRewardsPoolInfo] at hd
      | some r =>
        refine ⟨a, r, cb, rfl, rfl, rfl, ?_⟩
        simp only [fetchVotingPerformance, fetchVotingRewardsPoolInfo, Option.map,
          Option.some.injEq] at hd
        exact hd.symm

/-- Every row of a signing report satisfies the hardcoded-80 verdict. -/
theorem verifier_core_perf_qualified (va cn : String) (etc : Nat)
    (pi : RewardsPoolInfo) (cb : Int) (vs : List Verifier)
    (q : Nat → Option RawSession) :
    ∀ perf ∈ (verifierPerformanceCore va cn etc pi cb vs q).epochPerformance,
      perf.qualified = decide (0 < perf.sessionsInEpoch ∧
        80 ≤ perf.participationRate) := by
  intro perf hperf
  simp only [verifierPerformanceCore] at hperf
  split at hperf
  · simp at hperf
  · dsimp only at hperf
    obtain ⟨e, _, rfl⟩ := List.mem_map.mp hperf
    exact epochPerformanceOf_qualified _ e

/-- Every row of a voting report satisfies the hardcoded-80 verdict. -/
theorem voting_core_perf_qualified (va cn : String) (etc : Nat)
    (addr : String) (pi : RewardsPoolInfo) (cb : Int) (pollIdQ : Option Int)
    (p : Nat → Option RawPoll) :
    ∀ perf ∈ (votingPerformanceCore va cn etc addr pi cb pollIdQ p).epochPerformance,
      perf.qualified = decide (0 < perf.pollsInEpoch ∧
        80 ≤ perf.participationRate) := by
  intro perf hperf
  simp only [votingPerformanceCore] at hperf
  split at hperf
  · simp at hperf
  · split at hperf
    · simp at hperf
    · dsimp only at hperf
      obtain ⟨e, _, rfl⟩ := List.mem_map.mp hperf
      exact votingEpochPerformanceOf_qualified _ e

/-- The extrapolation identity of a signing report, over its own fields. -/
theorem verifier_core_estimate (va cn : String) (etc : Nat)
    (pi : RewardsPoolInfo) (cb : Int) (vs : List Verifier)
    (q : Nat → Option RawSession) :
    (verifierPerformanceCore va cn etc pi cb vs q).estimatedPendingRewards =
      (((verifierPerformanceCore va cn etc pi cb vs q).qualifiedEpochs : ℚ) /
        ((verifierPerformanceCore va cn etc pi cb vs q).epochPerformance.length : ℚ)) *
      ((verifierPerformanceCore va cn etc pi cb vs q).unpaidEpochCount : ℚ) *
      (verifierPerformanceCore va cn etc pi cb vs q).rewardsPerVerifierPerEpoch ∧
    (verifierPerformanceCore va cn etc pi cb vs q).unpaidEpochCount =
      (verifierPerformanceCore va cn etc pi cb vs q).currentEpoch -
      (verifierPerformanceCore va cn etc pi cb vs q).lastDistributionEpoch ∧
    ((verifierPerformanceCore va cn etc pi cb vs q).epochPerformance = [] →
      (verifierPerformanceCore va cn etc pi cb vs q).estimatedPendingRewards = 0) := by
  simp only [verifierPerformanceCore]
  split
  · rename_i hempty
    have h0 : pi.currentEpoch - pi.lastDistributionEpoch = 0 := by
      have hnil := jsSliceNeg_eq_nil _ _ hempty
      have hl := unpaidEpochsOf_length pi
      rw [hnil] at hl
      simpa using hl.symm
    refine ⟨by simp, by dsimp only; omega, fun _ => rfl⟩
  · rename_i hempty
    refine ⟨?_, ?_, ?_⟩
    · dsimp only
      rw [List.length_map]
    · dsimp only
      exact (unpaidEpochsOf_length pi).symm ▸ rfl
    · dsimp only
      intro hnil
      exfalso
      rw [List.map_eq_nil_iff] at hnil
      rw [hnil] at hempty
      simp at hempty

/-- The extrapolation identity of a voting report, over its own fields. -/
theorem voting_core_estimate (va cn : String) (etc : Nat) (addr : String)
    (pi : RewardsPoolInfo) (cb : Int) (pollIdQ : Option Int)
    (p : Nat → Option RawPoll) :
    (votingPerformanceCore va cn etc addr pi cb pollIdQ p).estimatedPendingRewards =
      (((votingPerformanceCore va cn etc addr pi cb pollIdQ p).qualifiedEpochs : ℚ) /
        ((votingPerformanceCore va cn etc addr pi cb pollIdQ p).epochPerformance.length : ℚ)) *
      ((votingPerformanceCore va cn etc addr pi cb pollIdQ p).unpaidEpochCount : ℚ) *
      (votingPerformanceCore va cn etc addr pi cb pollIdQ p).rewardsPerVerifierPerEpoch ∧
    ((votingPerformanceCore va cn etc addr pi cb pollIdQ p).epochPerformance = [] →
      (votingPerformanceCore va cn etc addr pi cb pollIdQ p).estimatedPendingRewards = 0) := by
  simp only [votingPerformanceCore]
  split
  · exact ⟨by simp, fun _ => rfl⟩
  · split
    · exact ⟨by simp, fun _ => rfl⟩
    · rename_i hempty
      refine ⟨?_, ?_⟩
      · dsimp only
        rw [List.length_map]
      · dsimp only
        intro hnil
        exfalso
        rw [List.map_eq_nil_iff] at hnil
        rw [hnil] at hempty
        simp at hempty

/-- Signing: with zero active verifiers the per-verifier share is the whole
pool's per-epoch reward (the division is never taken). -/
theorem verifier_core_reward_guard (va cn : String) (etc : Nat)
    (pi : RewardsPoolInfo) (cb : Int) (vs : List Verifier)
    (q : Nat → Option RawSession)
    (h : (verifierPerformanceCore va cn etc pi cb vs q).activeVerifiers = 0) :
    (verifierPerformanceCore va cn etc pi cb vs q).rewardsPerVerifierPerEpoch =
      (verifierPerformanceCore va cn etc pi cb vs q).poolRewardsPerEpoch := by
  simp only [verifierPerformanceCore] at *
  split at h <;> split <;> dsimp only at * <;> simp [h]

/-- Voting: with zero active verifiers the per-verifier share is either the
whole pool's per-epoch reward (guarded division) or the literal `0` of the
no-polls early return. -/
theorem voting_core_reward_guard (va cn : String) (etc : Nat) (addr : String)
    (pi : RewardsPoolInfo) (cb : Int) (pollIdQ : Option Int)
    (p : Nat → Option RawPoll)
    (h : (votingPerformanceCore va cn etc addr pi cb pollIdQ p).activeVerifiers = 0) :
    (votingPerformanceCore va cn etc addr pi cb pollIdQ p).rewardsPerVerifierPerEpoch =
      (votingPerformanceCore va cn etc addr pi cb pollIdQ p).poolRewardsPerEpoch ∨
    (votingPerformanceCore va cn etc addr pi cb pollIdQ p).rewardsPerVerifierPerEpoch = 0 := by
  simp only [votingPerformanceCore] at *
  split at h
  · right
    split <;> rfl
  · left
    split at h <;> split <;> dsimp only at * <;> simp_all

/-- C6: an epoch with zero observed records is never qualified, in both
scanners, regardless of any other input. -/
theorem C6_zero_total_never_qualified (va cn : String) (etc : Nat)
    (poolResp : Option RewardsPoolResponse) (gm : Option String)
    (cbResp : Option Int)
    (vr : Option (List Verifier)) (q : Nat → Option RawSession)
    (addr : Option String) (poolResp' : Option RewardsPoolResponse)
    (cbResp' : Option Int)
    (pollIdQ : Option Int) (p : Nat → Option RawPoll) :
    (∀ d, fetchVerifierPerformance va cn etc poolResp gm cbResp vr q = some d →
      ∀ perf ∈ d.epochPerformance, perf.sessionsInEpoch = 0 →
        perf.qualified = false) ∧
    (∀ d, fetchVotingPerformance va cn etc addr poolResp' cbResp' pollIdQ p = some d →
      ∀ perf ∈ d.epochPerformance, perf.pollsInEpoch = 0 →
        perf.qualified = false) := by
  constructor
  · intro d hd perf hperf h0
    obtain ⟨r, g, cb, -, -, -, rfl⟩ :=
      verifier_report_of_some va cn etc poolResp gm cbResp vr q d hd
    have := verifier_core_perf_qualified va cn etc (poolInfoOfResponse r) cb
      (fetchAllVerifiers vr) q perf hperf
    rw [this, h0]
    simp
  · intro d hd perf hperf h0
    obtain ⟨a, r, cb, -, -, -, rfl⟩ :=
      voting_report_of_some va cn etc addr poolResp' cbResp' pollIdQ p d hd
    have := voting_core_perf_qualified va cn etc a (poolInfoOfResponse r) cb
      pollIdQ p perf hperf
    rw [this, h0]
    simp

/-- C7: the pending-reward estimate of every returned report is exactly the
sampled qualification rate extrapolated over the unpaid-epoch backlog, the
unpaid-epoch count is `currentEpoch - lastDistributionEpoch` (the epochs
`lastDistributionEpoch + 1 .. currentEpoch`), and a report with no scanned
epochs estimates `0`. -/
theorem C7_pending_reward_estimate (va cn : String) (etc : Nat)
    (poolResp : Option RewardsPoolResponse) (gm : Option String)
    (cbResp : Option Int)
    (vr : Option (List Verifier)) (q : Nat → Option RawSession)
    (addr : Option String) (poolResp' : Option RewardsPoolResponse)
    (cbResp' : Option Int)
    (pollIdQ : Option Int) (p : Nat → Option RawPoll) :
    (∀ d, fetchVerifierPerformance va cn etc poolResp gm cbResp vr q = some d →
      d.estimatedPendingRewards =
        ((d.qualifiedEpochs : ℚ) / (d.epochPerformance.length : ℚ)) *
          (d.unpaidEpochCount : ℚ) * d.rewardsPerVerifierPerEpoch ∧
      d.unpaidEpochCount = d.currentEpoch - d.lastDistributionEpoch ∧
      (d.epochPerformance = [] → d.estimatedPendingRewards = 0)) ∧
    (∀ d, fetchVotingPerformance va cn etc addr poolResp' cbResp' pollIdQ p = some d →
      d.estimatedPendingRewards =
        ((d.qualifiedEpochs : ℚ) / (d.epochPerformance.length : ℚ)) *
          (d.unpaidEpochCount : ℚ) * d.rewardsPerVerifierPerEpoch ∧
      (d.epochPerformance = [] → d.estimatedPendingRewards = 0)) := by
  constructor
  · intro d hd
    obtain ⟨r, g, cb, -, -, -, rfl⟩ :=
      verifier_report_of_some va cn etc poolResp gm cbResp vr q d hd
    exact verifier_core_estimate va cn etc (poolInfoOfResponse r) cb
      (fetchAllVerifiers vr) q
  · intro d hd
    obtain ⟨a, r, cb, -, -, -, rfl⟩ :=
      voting_report_of_some va cn etc addr poolResp' cbResp' pollIdQ p d hd
    exact voting_core_estimate va cn etc a (poolInfoOfResponse r) cb pollIdQ p

/-- C10: with zero active verifiers the per-verifier reward share is never
produced by a division by zero: the signing scanner returns the full pool
reward per epoch, and the voting scanner returns either that guarded value
or the `0` of its no-polls early return. -/
theorem C10_zero_verifier_guard (va cn : String) (etc : Nat)
    (poolResp : Option RewardsPoolResponse) (gm : Option String)
    (cbResp : Option Int)
    (vr : Option (List Verifier)) (q : Nat → Option RawSession)
    (addr : Option String) (poolResp' : Option RewardsPoolResponse)
    (cbResp' : Option Int)
    (pollIdQ : Option Int) (p : Nat → Option RawPoll) :
    (∀ d, fetchVerifierPerformance va cn etc poolResp gm cbResp vr q = some d →
      d.activeVerifiers = 0 →
        d.rewardsPerVerifierPerEpoch = d.poolRewardsPerEpoch) ∧
    (∀ d, fetchVotingPerformance va cn etc addr poolResp' cbResp' pollIdQ p = some d →
      d.activeVerifiers = 0 →
        d.rewardsPerVerifierPerEpoch = d.poolRewardsPerEpoch ∨
        d.rewardsPerVerifierPerEpoch = 0) := by
  constructor
  · intro d hd h0
    obtain ⟨r, g, cb, -, -, -, rfl⟩ :=
      verifier_report_of_some va cn etc poolResp gm cbResp vr q d hd
    exact verifier_core_reward_guard va cn etc (poolInfoOfResponse r) cb
      (fetchAllVerifiers vr) q h0
  · intro d hd h0
    obtain ⟨a, r, cb, -, -, -, rfl⟩ :=
      voting_report_of_some va cn etc addr poolResp' cbResp' pollIdQ p d hd
    exact voting_core_reward_guard va cn etc a (poolInfoOfResponse r) cb
      pollIdQ p h0

/-- C5: the computed window for epoch `e ≤ currentEpoch` is
`[alignedCurrentStart - (currentEpoch - e) * L, ... + L - 1]` where
`alignedCurrentStart = currentHeight - currentHeight mod L`, and the window
for `currentEpoch` always contains `currentHeight` (for any positive epoch
length; the source instantiates `L = EPOCH_DURATION`). -/
theorem C5_epoch_window (L currentBlock : Int) (currentEpoch e : Nat)
    (hL : 0 < L) (_hcb : 0 ≤ currentBlock) (_he : e ≤ currentEpoch) :
    epochWindow L currentBlock currentEpoch e =
      (currentBlock - currentBlock % L - ((currentEpoch : Int) - (e : Int)) * L,
        currentBlock - currentBlock % L - ((currentEpoch : Int) - (e : Int)) * L
          + L - 1) ∧
    (epochWindow L currentBlock currentEpoch currentEpoch).1 ≤ currentBlock ∧
    currentBlock ≤ (epochWindow L currentBlock currentEpoch currentEpoch).2 := by
  have h1 : 0 ≤ currentBlock % L := Int.emod_nonneg _ (by omega)
  have h2 : currentBlock % L < L := Int.emod_lt_of_pos _ hL
  have h3 : ((currentEpoch : Int) - (currentEpoch : Int)) * L = 0 := by ring
  refine ⟨rfl, ?_, ?_⟩
  · show currentBlock - currentBlock % L -
      ((currentEpoch : Int) - (currentEpoch : Int)) * L ≤ currentBlock
    rw [h3]
    omega
  · show currentBlock ≤ currentBlock - currentBlock % L -
      ((currentEpoch : Int) - (currentEpoch : Int)) * L + L - 1
    rw [h3]
    omega

/-- C8: an id whose record lookup comes back absent is skipped — the scan
state is unchanged and the walk continues with the next lower id, in both
scanners; absence never terminates the scan. -/
theorem C8_absent_record_skipped (q : Nat → Option RawSession)
    (p : Nat → Option RawPoll) (va : String)
    (ranges : List (Nat × Int × Int)) (lb : Int) (id : Nat) (rest : List Nat)
    (stats : Nat → Nat × Nat) (hq : q id = none) (hp : p id = none) :
    scanSessions q va ranges lb (id :: rest) stats =
      scanSessions q va ranges lb rest stats ∧
    scanPolls p va ranges lb (id :: rest) stats =
      scanPolls p va ranges lb rest stats := by
  constructor
  · conv_lhs => rw [scanSessions]
    unfold getSessionDetails
    rw [hq]
  · conv_lhs => rw [scanPolls]
    unfold getPollDetails
    rw [hp]

/-- C9: a present session whose state carries no `completed.completed_at`
is reported with `completedAt = 0` by `getSessionDetails`, and — the oldest
window start being positive — the scan breaks on it immediately, returning
the accumulated tallies and never examining any lower id. -/
theorem C9_uncompleted_session_breaks (q : Nat → Option RawSession)
    (id : Nat) (r : RawSession) (va : String)
    (ranges : List (Nat × Int × Int)) (lb : Int) (rest : List Nat)
    (stats : Nat → Nat × Nat)
    (hq : q id = some r) (hc : r.completed_at = none) (hlb : 0 < lb) :
    getSessionDetails q id = some ⟨0, r.signers, r.signatures⟩ ∧
    scanSessions q va ranges lb (id :: rest) stats = stats := by
  have hdet : getSessionDetails q id = some ⟨0, r.signers, r.signatures⟩ := by
    unfold getSessionDetails
    rw [hq]
    simp [hc]
  refine ⟨hdet, ?_⟩
  conv_lhs => rw [scanSessions]
  rw [hdet]
  simp only
  rw [if_pos hlb]

/-- C2 (amended): the returned reports carry no partial/exhaustive
annotation at all — a signing report is fully determined by the static
inputs and the final per-epoch tallies, and a voting report additionally
only by the located latest poll id and its details; whether the look-back
cap was reached or the lower-bound break fired leaves no trace. -/
theorem C2_amended (va cn : String) (etc : Nat) (pi : RewardsPoolInfo)
    (cb : Int) (vs : List Verifier) (addr : String)
    (q q' : Nat → Option RawSession) (pollIdQ pollIdQ' : Option Int)
    (p p' : Nat → Option RawPoll) :
    ((∀ x, verifierScanStats va etc pi cb (findLatestSessionId q) q x =
        verifierScanStats va etc pi cb (findLatestSessionId q') q' x) →
      verifierPerformanceCore va cn etc pi cb vs q =
        verifierPerformanceCore va cn etc pi cb vs q') ∧
    (findLatestPollId pollIdQ p = findLatestPollId pollIdQ' p' →
      getPollDetails p (findLatestPollId pollIdQ p) =
        getPollDetails p' (findLatestPollId pollIdQ' p') →
      (∀ x, votingScanStats va etc pi cb (findLatestPollId pollIdQ p) p x =
        votingScanStats va etc pi cb (findLatestPollId pollIdQ' p') p' x) →
      votingPerformanceCore va cn etc addr pi cb pollIdQ p =
        votingPerformanceCore va cn etc addr pi cb pollIdQ' p') := by
  constructor
  · intro h
    unfold verifierPerformanceCore
    rw [funext h]
  · intro hl hd hs
    simp only [votingPerformanceCore]
    rw [funext hs, hd, hl]

/-- C3 (amended): the qualification verdict of every returned row, in both
scanners, is `total > 0 && rate >= 80` with the percentage threshold `80` a
hardcoded literal; the pool response's `participation_threshold` does not
influence the report — two responses differing only in fields other than
`current_epoch_num`, `last_distribution_epoch` and `rewards_per_epoch`
yield identical reports. -/
theorem C3_amended (va cn : String) (etc : Nat)
    (poolResp : Option RewardsPoolResponse) (gm : Option String)
    (cbResp : Option Int)
    (vr : Option (List Verifier)) (q : Nat → Option RawSession)
    (addr : Option String) (poolResp' : Option RewardsPoolResponse)
    (cbResp' : Option Int)
    (pollIdQ : Option Int) (p : Nat → Option RawPoll)
    (r r' : RewardsPoolResponse)
    (hcur : r.current_epoch_num = r'.current_epoch_num)
    (hlast : r.last_distribution_epoch = r'.last_distribution_epoch)
    (hrew : r.rewards_per_epoch = r'.rewards_per_epoch) :
    (∀ d, fetchVerifierPerformance va cn etc poolResp gm cbResp vr q = some d →
      ∀ perf ∈ d.epochPerformance,
        perf.qualified = decide (0 < perf.sessionsInEpoch ∧
          80 ≤ perf.participationRate)) ∧
    (∀ d, fetchVotingPerformance va cn etc addr poolResp' cbResp' pollIdQ p = some d →
      ∀ perf ∈ d.epochPerformance,
        perf.qualified = decide (0 < perf.pollsInEpoch ∧
          80 ≤ perf.participationRate)) ∧
    fetchVerifierPerformance va cn etc (some r) gm cbResp vr q =
      fetchVerifierPerformance va cn etc (some r') gm cbResp vr q ∧
    fetchVotingPerformance va cn etc addr (some r) cbResp' pollIdQ p =
      fetchVotingPerformance va cn etc addr (some r') cbResp' pollIdQ p := by
  have hpi : poolInfoOfResponse r = poolInfoOfResponse r' := by
    unfold poolInfoOfResponse
    rw [hcur, hlast, hrew]
  refine ⟨?_, ?_, ?_, ?_⟩
  · intro d hd perf hperf
    obtain ⟨rr, g, cb, -, -, -, rfl⟩ :=
      verifier_report_of_some va cn etc poolResp gm cbResp vr q d hd
    exact verifier_core_perf_qualified va cn etc (poolInfoOfResponse rr) cb
      (fetchAllVerifiers vr) q perf hperf
  · intro d hd perf hperf
    obtain ⟨a, rr, cb, -, -, -, rfl⟩ :=
      voting_report_of_some va cn etc addr poolResp' cbResp' pollIdQ p d hd
    exact voting_core_perf_qualified va cn etc a (poolInfoOfResponse rr) cb
      pollIdQ p perf hperf
  · cases cbResp <;> cases gm <;>
      simp [fetchVerifierPerformance, fetchRewardsPoolInfo, hpi]
  · cases cbResp' <;> cases addr <;>
      simp [fetchVotingPerformance, fetchVotingRewardsPoolInfo, hpi]

/-- A canonical session oracle whose records exist exactly for ids
`1..M`. -/
def prefixSessionOracle (M : Nat) : Nat → Option RawSession :=
  fun n => if 1 ≤ n ∧ n ≤ M then some ⟨[], [], some 1⟩ else none

/-- A canonical poll oracle whose polls exist exactly for ids `1..M`. -/
def prefixPollOracle (M : Nat) : Nat → Option RawPoll :=
  fun n => if 1 ≤ n ∧ n ≤ M then some ⟨some 1, some true, some []⟩ else none

theorem prefixSessionOracle_isSome (M : Nat) :
    ∀ n, ((prefixSessionOracle M n).isSome = true) ↔ 1 ≤ n ∧ n ≤ M := by
  intro n
  unfold prefixSessionOracle
  split <;> simp_all

theorem prefixPollOracle_isSome (M : Nat) :
    ∀ n, ((prefixPollOracle M n).isSome = true) ↔ 1 ≤ n ∧ n ≤ M := by
  intro n
  unfold prefixPollOracle
  split <;> simp_all

/-- C1 (counterexample): on the empty sequence (`existsAt` false
everywhere, `M = 0`) `findLatestSessionId` returns its initialiser `1`,
not the sentinel `0` the claim requires of both locators. -/
theorem C1_counterexample :
    findLatestSessionId (fun _ => (none : Option RawSession)) = 1 ∧
    findLatestSessionId (fun _ => (none : Option RawSession)) ≠ 0 := by
  have h := findLatestSessionId_prefix_spec 0 (fun _ => (none : Option RawSession))
    (by intro n; simp; omega) (by omega)
  rw [if_pos rfl] at h
  exact ⟨h, by omega⟩

/-- C1 (amended): for every existence predicate true exactly on `1..M`
(`M ≤ 100000`, the hardcoded search bound) and a `poll_id {}` response that
is either failed or the consistent `M + 1`: both locators return exactly
`M` when `1 ≤ M`; on the empty sequence `findLatestPollId` returns the
sentinel `0` but `findLatestSessionId` returns `1`. -/
theorem C1_amended (M : Nat) (q : Nat → Option RawSession)
    (p : Nat → Option RawPoll) (pollIdQ : Option Int)
    (hq : ∀ n, ((q n).isSome = true) ↔ 1 ≤ n ∧ n ≤ M)
    (hp : ∀ n, ((p n).isSome = true) ↔ 1 ≤ n ∧ n ≤ M)
    (hpq : pollIdQ = none ∨ pollIdQ = some ((M : Int) + 1))
    (hM : M ≤ 100000) :
    (M = 0 → findLatestSessionId q = 1 ∧ findLatestPollId pollIdQ p = 0) ∧
    (1 ≤ M → findLatestSessionId q = M ∧ findLatestPollId pollIdQ p = M) := by
  have hs := findLatestSessionId_prefix_spec M q hq hM
  have hpoll := findLatestPollId_prefix_spec M p pollIdQ hp hpq hM
  constructor
  · intro h0
    rw [if_pos h0] at hs hpoll
    exact ⟨hs, hpoll⟩
  · intro h1
    rw [if_neg (by omega)] at hs hpoll
    exact ⟨hs, hpoll⟩

/-- Witness for C1 (amended) at `M = 37` with the canonical oracles and a
failed `poll_id {}` query. -/
theorem C1_witness :
    findLatestSessionId (prefixSessionOracle 37) = 37 ∧
    findLatestPollId none (prefixPollOracle 37) = 37 :=
  (C1_amended 37 (prefixSessionOracle 37) (prefixPollOracle 37) none
    (prefixSessionOracle_isSome 37) (prefixPollOracle_isSome 37)
    (Or.inl rfl) (by omega)).2 (by omega)


/-- A walk over ids none of whose present records either precede the lower
bound or land in a tracked range neither changes the tallies nor fires the
break: the situation of a cap-bounded scan that never crosses the oldest
epoch's start. -/
theorem scanSessions_no_tally (q : Nat → Option RawSession) (va : String)
    (ranges : List (Nat × Int × Int)) (lb : Int)
    (h : ∀ id s, getSessionDetails q id = some s →
      ¬ s.completedAt < lb ∧
      ranges.find? (fun r => decide (r.2.1 ≤ s.completedAt) &&
        decide (s.completedAt ≤ r.2.2)) = none) :
    ∀ ids stats, scanSessions q va ranges lb ids stats = stats ∧
      scanSessionsBroke q lb ids = false := by
  intro ids
  induction ids with
  | nil => intro stats; exact ⟨rfl, rfl⟩
  | cons id rest ih =>
    intro stats
    cases hdet : getSessionDetails q id with
    | none =>
      refine ⟨?_, ?_⟩
      · rw [show scanSessions q va ranges lb (id :: rest) stats =
            scanSessions q va ranges lb rest stats by
          simp only [scanSessions, hdet]]
        exact (ih stats).1
      · rw [show scanSessionsBroke q lb (id :: rest) =
            scanSessionsBroke q lb rest by
          simp only [scanSessionsBroke, hdet]]
        exact (ih stats).2
    | some s =>
      obtain ⟨hge, hfind⟩ := h id s hdet
      have htally : tallyRecord ranges s.completedAt
          (s.signatures.contains va) stats = stats := by
        unfold tallyRecord
        rw [hfind]
      refine ⟨?_, ?_⟩
      · rw [show scanSessions q va ranges lb (id :: rest) stats =
            scanSessions q va ranges lb rest
              (tallyRecord ranges s.completedAt (s.signatures.contains va) stats) by
          simp only [scanSessions, hdet, if_neg hge]]
        rw [htally]
        exact (ih stats).1
      · rw [show scanSessionsBroke q lb (id :: rest) =
            scanSessionsBroke q lb rest by
          simp only [scanSessionsBroke, hdet, if_neg hge]]
        exact (ih stats).2

/-- A scan whose first id carries a record older than the lower bound
breaks immediately. -/
theorem scanSessions_break_first (q : Nat → Option RawSession) (va : String)
    (ranges : List (Nat × Int × Int)) (lb : Int) (id : Nat) (rest : List Nat)
    (stats : Nat → Nat × Nat) (s : SessionDetails)
    (hdet : getSessionDetails q id = some s) (hlt : s.completedAt < lb) :
    scanSessions q va ranges lb (id :: rest) stats = stats ∧
      scanSessionsBroke q lb (id :: rest) = true := by
  constructor
  · simp only [scanSessions, hdet, if_pos hlt]
  · simp only [scanSessionsBroke, hdet, if_pos hlt]

/-- A pool response with one unpaid epoch (`current_epoch_num = 10`,
`last_distribution_epoch = 9`) and a 1-AXL-per-epoch pool. -/
def samplePool : RewardsPoolResponse := ⟨1000000, 1000000, 10, some 9, 47250, (8, 10)⟩

/-- The report produced for `samplePool` at block `4725000` with no
verifiers and an all-zero scan. -/
def sampleVerifierData : VerifierChainData :=
  ⟨"flow", 10, 9, 1, 0, 1, 1, [⟨10, 0, 0, 0, false⟩], 0, 0⟩

/-- 6000 sessions, all completed one block past epoch 10's window: the
backward scan runs into the 5000-session look-back cap without ever
crossing the oldest window's start. -/
def capSessionOracle : Nat → Option RawSession :=
  fun n => if 1 ≤ n ∧ n ≤ 6000 then some ⟨[], [], some 4772250⟩ else none

/-- 5 sessions completed at height 0: the scan breaks on the very first
one. -/
def breakSessionOracle : Nat → Option RawSession :=
  fun n => if 1 ≤ n ∧ n ≤ 5 then some ⟨[], [], some 0⟩ else none

def emptySessionOracle : Nat → Option RawSession := fun _ => none

def emptyPollOracle : Nat → Option RawPoll := fun _ => none

theorem capSessionOracle_isSome :
    ∀ n, ((capSessionOracle n).isSome = true) ↔ 1 ≤ n ∧ n ≤ 6000 := by
  intro n
  unfold capSessionOracle
  split <;> simp_all

theorem breakSessionOracle_isSome :
    ∀ n, ((breakSessionOracle n).isSome = true) ↔ 1 ≤ n ∧ n ≤ 5 := by
  intro n
  unfold breakSessionOracle
  split <;> simp_all

theorem capOracle_no_tally :
    ∀ id s, getSessionDetails capSessionOracle id = some s →
      ¬ s.completedAt < (4725000 : Int) ∧
      ([(10, 4725000, 4772249)] : List (Nat × Int × Int)).find?
        (fun r => decide (r.2.1 ≤ s.completedAt) &&
          decide (s.completedAt ≤ r.2.2)) = none := by
  intro id s hdet
  unfold getSessionDetails capSessionOracle at hdet
  split at hdet
  · exact absurd hdet (by simp)
  · rename_i r heq
    split at heq
    · injection heq with h'
      subst h'
      injection hdet with h2
      rw [← h2]
      exact ⟨by decide, by decide⟩
    · exact absurd heq (by simp)

theorem sampleRanges :
    (jsSliceNeg (unpaidEpochsOf (poolInfoOfResponse samplePool)) 5).map
      (fun e => (e, epochWindow EPOCH_DURATION 4725000
        (poolInfoOfResponse samplePool).currentEpoch e)) =
      [(10, 4725000, 4772249)] := by decide

theorem sampleMin :
    listMin (jsSliceNeg (unpaidEpochsOf (poolInfoOfResponse samplePool)) 5) = 10 := by
  decide

theorem sampleLb :
    ((List.lookup 10 ([(10, 4725000, 4772249)] : List (Nat × Int × Int))).getD
      (0, 0)).1 = (4725000 : Int) := by decide

theorem capStats :
    verifierScanStats "v" 5 (poolInfoOfResponse samplePool) 4725000 6000
      capSessionOracle = (fun _ => (0, 0)) := by
  simp only [verifierScanStats]
  rw [sampleRanges, sampleMin, sampleLb]
  exact (scanSessions_no_tally capSessionOracle "v" _ _ capOracle_no_tally _ _).1

theorem breakStats :
    verifierScanStats "v" 5 (poolInfoOfResponse samplePool) 4725000 5
      breakSessionOracle = (fun _ => (0, 0)) := by
  simp only [verifierScanStats]
  rw [sampleRanges, sampleMin, sampleLb,
    show scanIds 5 5000 = [5, 4, 3, 2, 1] from by decide]
  exact (scanSessions_break_first breakSessionOracle "v" _ _ 5 _ _ ⟨0, [], []⟩
    (by decide) (by decide)).1

theorem emptyStats :
    verifierScanStats "v" 5 (poolInfoOfResponse samplePool) 4725000 1
      emptySessionOracle = (fun _ => (0, 0)) := by
  simp only [verifierScanStats]
  rw [sampleRanges, sampleMin, sampleLb]
  exact (scanSessions_no_tally emptySessionOracle "v" _ _
    (fun id s hdet => absurd hdet (by simp [getSessionDetails, emptySessionOracle])) _ _).1

/-- The trivial-oracle run used by several witnesses. -/
theorem sampleVerifierRun :
    fetchVerifierPerformance "v" "flow" 5 (some samplePool) (some "gm") (some 4725000)
      (some []) emptySessionOracle = some sampleVerifierData := by
  have e0 : findLatestSessionId emptySessionOracle = 1 := by
    simpa using findLatestSessionId_prefix_spec 0 emptySessionOracle
      (by intro n; simp [emptySessionOracle]; omega) (by omega)
  show some (verifierPerformanceCore "v" "flow" 5 (poolInfoOfResponse samplePool)
    4725000 [] emptySessionOracle) = some sampleVerifierData
  unfold verifierPerformanceCore
  rw [e0, emptyStats]
  norm_num [sampleVerifierData, poolInfoOfResponse, samplePool, unpaidEpochsOf,
    jsSliceNeg, listMin, epochPerformanceOf, List.range', List.countP,
    List.countP.go]

/-- C2 (counterexample): a scan that exhausts the 5000-session look-back
cap without ever reaching a record below the oldest window
(`capSessionOracle`, break never fires, cap boundary `1000 > 1`) returns
*exactly the same* `VerifierChainData` as a scan terminated exhaustively by
the lower-bound break (`breakSessionOracle`): the claim's partial-scan
annotation does not exist, so the caller cannot distinguish the two. -/
theorem C2_counterexample :
    fetchVerifierPerformance "v" "flow" 5 (some samplePool) (some "gm") (some 4725000)
      (some []) capSessionOracle =
    fetchVerifierPerformance "v" "flow" 5 (some samplePool) (some "gm") (some 4725000)
      (some []) breakSessionOracle ∧
    scanSessionsBroke capSessionOracle 4725000 (scanIds 6000 5000) = false ∧
    scanSessionsBroke breakSessionOracle 4725000 (scanIds 5 5000) = true ∧
    1 < max 1 (6000 - 5000) := by
  have e1 : findLatestSessionId capSessionOracle = 6000 := by
    simpa using findLatestSessionId_prefix_spec 6000 capSessionOracle
      capSessionOracle_isSome (by omega)
  have e2 : findLatestSessionId breakSessionOracle = 5 := by
    simpa using findLatestSessionId_prefix_spec 5 breakSessionOracle
      breakSessionOracle_isSome (by omega)
  refine ⟨?_, ?_, ?_, by decide⟩
  · show some (verifierPerformanceCore "v" "flow" 5 (poolInfoOfResponse samplePool)
      4725000 [] capSessionOracle) =
      some (verifierPerformanceCore "v" "flow" 5 (poolInfoOfResponse samplePool)
      4725000 [] breakSessionOracle)
    unfold verifierPerformanceCore
    rw [e1, e2, capStats, breakStats]
  · exact (scanSessions_no_tally capSessionOracle "v" _ _ capOracle_no_tally
      (scanIds 6000 5000) (fun _ => (0, 0))).2
  · rw [show scanIds 5 5000 = [5, 4, 3, 2, 1] from by decide]
    exact (scanSessions_break_first breakSessionOracle "v" [] 4725000 5 [4, 3, 2, 1]
      (fun _ => (0, 0)) ⟨0, [], []⟩ (by decide) (by decide)).2

/-- Witness for C2 (amended) at concrete inputs with identical scans. -/
theorem C2_witness :
    verifierPerformanceCore "v" "flow" 5 (poolInfoOfResponse samplePool) 4725000 []
      emptySessionOracle =
    verifierPerformanceCore "v" "flow" 5 (poolInfoOfResponse samplePool) 4725000 []
      emptySessionOracle :=
  (C2_amended "v" "flow" 5 (poolInfoOfResponse samplePool) 4725000 [] "addr"
    emptySessionOracle emptySessionOracle none none emptyPollOracle
    emptyPollOracle).1 (fun _ => rfl)

/-- C4 (counterexample): with every configuration-level input present —
the pool response and the global multisig / voting-verifier address — a
failed current-block-height lookup (the raw `axios.get` of
`getCurrentBlockHeight`, a per-lookup remote failure outside
`queryContract`'s absorption) reaches the outer catch and suppresses the
report of both fetchers, contradicting the claim that only
configuration-level misuse can prevent a report. -/
theorem C4_counterexample :
    fetchVerifierPerformance "v" "flow" 5 (some samplePool) (some "gm") none
      (some []) emptySessionOracle = none ∧
    fetchVotingPerformance "v" "flow" 5 (some "addr") (some samplePool) none
      none emptyPollOracle = none ∧
    (some samplePool).isSome = true ∧
    (some "gm" : Option String).isSome = true ∧
    (some "addr" : Option String).isSome = true :=
  ⟨rfl, rfl, rfl, rfl, rfl⟩

/-- C4 (amended): a report is returned exactly when the pool response, the
global multisig / voting-verifier address, and the current-block-height
lookup are all available; in particular the presence of the report is
independent of the per-record oracles, so per-record remote failures
(absorbed as `null` by `queryContract`) never suppress it — but a failed
block-height lookup, which the source does not absorb, does. -/
theorem C4_amended (va cn : String) (etc : Nat)
    (poolResp : Option RewardsPoolResponse) (gm : Option String)
    (cbResp : Option Int) (vr : Option (List Verifier))
    (q : Nat → Option RawSession) (addr : Option String)
    (poolResp' : Option RewardsPoolResponse) (cbResp' : Option Int)
    (pollIdQ : Option Int) (p : Nat → Option RawPoll) :
    (fetchVerifierPerformance va cn etc poolResp gm cbResp vr q).isSome =
      (poolResp.isSome && gm.isSome && cbResp.isSome) ∧
    (fetchVotingPerformance va cn etc addr poolResp' cbResp' pollIdQ p).isSome =
      (addr.isSome && poolResp'.isSome && cbResp'.isSome) := by
  constructor
  · cases cbResp <;> cases poolResp <;> cases gm <;>
      simp [fetchVerifierPerformance, fetchRewardsPoolInfo]
  · cases cbResp' <;> cases addr <;> cases poolResp' <;>
      simp [fetchVotingPerformance, fetchVotingRewardsPoolInfo]


/-- A pool response whose `participation_threshold` is `1/2` (50%), same
epochs as `samplePool`. -/
def thresholdPool : RewardsPoolResponse := ⟨1000000, 1000000, 10, some 9, 47250, (1, 2)⟩

/-- 10 sessions completed inside epoch 10's window; verifier `"v"` signed
the first 6 of them: participation rate 60%. -/
def rateSessionOracle : Nat → Option RawSession :=
  fun n =>
    if 1 ≤ n ∧ n ≤ 10 then
      some ⟨[], if n ≤ 6 then ["v"] else [], some 4725000⟩
    else none

theorem rateSessionOracle_isSome :
    ∀ n, ((rateSessionOracle n).isSome = true) ↔ 1 ≤ n ∧ n ≤ 10 := by
  intro n
  unfold rateSessionOracle
  split <;> simp_all

theorem thresholdPoolInfo :
    poolInfoOfResponse thresholdPool = ⟨10, 9, 1⟩ := by
  norm_num [poolInfoOfResponse, thresholdPool]

theorem rateStats :
    verifierScanStats "v" 5 ⟨10, 9, 1⟩ 4725000 10
      rateSessionOracle 10 = (10, 6) := by decide

/-- C3 (counterexample): with a pool whose `participation_threshold` is
`1/2` and an epoch tally of 6 participations out of 10 (rate 60% ≥ 50%),
the scanner still reports `qualified = false` — the verdict compares the
percentage rate against the hardcoded literal `80`, not against the
threshold from the rewards-pool query, which the pool-info fetchers do not
even extract. -/
theorem C3_counterexample :
    fetchVerifierPerformance "v" "flow" 5 (some thresholdPool) (some "gm") (some 4725000)
      (some []) rateSessionOracle =
      some ⟨"flow", 10, 9, 1, 0, 1, 1, [⟨10, 10, 6, 60, false⟩], 0, 0⟩ ∧
    participationThresholdOf thresholdPool = 1 / 2 ∧
    participationThresholdOf thresholdPool ≤ (6 : ℚ) / 10 := by
  have e3 : findLatestSessionId rateSessionOracle = 10 := by
    simpa using findLatestSessionId_prefix_spec 10 rateSessionOracle
      rateSessionOracle_isSome (by omega)
  refine ⟨?_, by norm_num [participationThresholdOf, thresholdPool],
    by norm_num [participationThresholdOf, thresholdPool]⟩
  show some (verifierPerformanceCore "v" "flow" 5 (poolInfoOfResponse thresholdPool)
    4725000 [] rateSessionOracle) =
    some ⟨"flow", 10, 9, 1, 0, 1, 1, [⟨10, 10, 6, 60, false⟩], 0, 0⟩
  unfold verifierPerformanceCore
  rw [thresholdPoolInfo, e3]
  norm_num [unpaidEpochsOf, jsSliceNeg, listMin, epochPerformanceOf,
    List.range', List.countP, List.countP.go, rateStats]

/-- Witness for C3 (amended) on the trivial-oracle run. -/
theorem C3_witness :
    (⟨10, 0, 0, 0, false⟩ : EpochPerformance).qualified =
      decide (0 < (⟨10, 0, 0, 0, false⟩ : EpochPerformance).sessionsInEpoch ∧
        80 ≤ (⟨10, 0, 0, 0, false⟩ : EpochPerformance).participationRate) :=
  (C3_amended "v" "flow" 5 (some samplePool) (some "gm") (some 4725000)
    (some []) emptySessionOracle (some "addr") (some samplePool)
    (some 4725000) none emptyPollOracle samplePool samplePool rfl rfl rfl).1
    sampleVerifierData sampleVerifierRun ⟨10, 0, 0, 0, false⟩ (by decide)

/-- Witness for C5 on the spec's own scenario (`epochLength = 100`,
`currentHeight = 950`, current epoch 9). -/
theorem C5_witness :
    epochWindow 100 950 9 9 = (900, 999) ∧
    (epochWindow 100 950 9 9).1 ≤ 950 ∧
    (950 : Int) ≤ (epochWindow 100 950 9 9).2 := by
  have h := C5_epoch_window 100 950 9 9 (by norm_num) (by norm_num) le_rfl
  exact ⟨by decide, h.2.1, h.2.2⟩

/-- Witness for C6 on the trivial-oracle run (epoch 10 has zero records). -/
theorem C6_witness :
    (⟨10, 0, 0, 0, false⟩ : EpochPerformance).qualified = false :=
  (C6_zero_total_never_qualified "v" "flow" 5 (some samplePool) (some "gm")
    (some 4725000) (some []) emptySessionOracle (some "addr") (some samplePool)
    (some 4725000) none emptyPollOracle).1 sampleVerifierData sampleVerifierRun
    ⟨10, 0, 0, 0, false⟩ (by decide) rfl

/-- Witness for C7 on the trivial-oracle run. -/
theorem C7_witness :
    sampleVerifierData.estimatedPendingRewards =
      ((sampleVerifierData.qualifiedEpochs : ℚ) /
        (sampleVerifierData.epochPerformance.length : ℚ)) *
      (sampleVerifierData.unpaidEpochCount : ℚ) *
      sampleVerifierData.rewardsPerVerifierPerEpoch :=
  ((C7_pending_reward_estimate "v" "flow" 5 (some samplePool) (some "gm")
    (some 4725000) (some []) emptySessionOracle (some "addr") (some samplePool)
    (some 4725000) none emptyPollOracle).1 sampleVerifierData sampleVerifierRun).1

/-- Witness for C8 at a concrete absent id. -/
theorem C8_witness :
    scanSessions emptySessionOracle "v" [] 0 [5] (fun _ => (0, 0)) =
      scanSessions emptySessionOracle "v" [] 0 [] (fun _ => (0, 0)) ∧
    scanPolls emptyPollOracle "v" [] 0 [5] (fun _ => (0, 0)) =
      scanPolls emptyPollOracle "v" [] 0 [] (fun _ => (0, 0)) :=
  C8_absent_record_skipped emptySessionOracle emptyPollOracle "v" [] 0 5 []
    (fun _ => (0, 0)) rfl rfl

/-- An oracle whose sessions are present but still in flight (no
`completed_at`). -/
def uncompletedSessionOracle : Nat → Option RawSession :=
  fun _ => some ⟨[], [], none⟩

/-- Witness for C9 at id 7 with lower bound 1. -/
theorem C9_witness :
    getSessionDetails uncompletedSessionOracle 7 = some ⟨0, [], []⟩ ∧
    scanSessions uncompletedSessionOracle "v" [] 1 (7 :: [6, 5])
      (fun _ => (0, 0)) = (fun _ => (0, 0)) :=
  C9_uncompleted_session_breaks uncompletedSessionOracle 7 ⟨[], [], none⟩ "v"
    [] 1 [6, 5] (fun _ => (0, 0)) rfl rfl (by norm_num)

/-- Witness for C10 on the trivial-oracle run (zero active verifiers). -/
theorem C10_witness :
    sampleVerifierData.rewardsPerVerifierPerEpoch =
      sampleVerifierData.poolRewardsPerEpoch :=
  (C10_zero_verifier_guard "v" "flow" 5 (some samplePool) (some "gm")
    (some 4725000) (some []) emptySessionOracle (some "addr") (some samplePool)
    (some 4725000) none emptyPollOracle).1 sampleVerifierData sampleVerifierRun rfl

end AxelarDashboard
